import Mathlib

/-!
# Client-side streaming, export, routing and API interceptor

A shallow embedding of
* `frontend/src/composables/useStreaming.js` (the fetch/read loop of `startStreaming`,
  `stopStreaming`),
* `frontend/src/composables/useExport.js` (the download name of `exportConversation`),
* `frontend/src/router/index.js` (the route table and the `beforeEach` guard),
* `frontend/src/stores/auth.js` (`isAuthenticated`),
* `frontend/src/services/api.js` (the error branch of the response interceptor).

Wire text is a `List Char`; the values carried by events are `String`s.
-/

namespace Streaming

/-- Wire text: the decoded text of one read, or one block of it. -/
abbrev Text := List Char

/-- The object `JSON.parse` returns for one event, reduced to the fields the read loop looks at:
`data.type`, `data.content`, `data.message`; `rest` stands for every other field (it only
travels to `onComplete`, which receives the whole object). -/
structure Payload where
  type : String
  content : String
  message : String
  rest : String
  deriving DecidableEq

/-- One invocation of a callback passed to `startStreaming`, with its arguments. The three
callbacks are taken as given (the guards `if (onChunk)` and so on pass) and as returning
normally. -/
inductive Call where
  | onChunk (fragment : String) (accumulated : String)
  | onComplete (data : Payload)
  | onError (message : String)
  deriving DecidableEq

/-- The refs of one `useStreaming()` instance together with the observable trace of the calls.
`reading` tells whether a `reader.read()` issued by `readStream` is outstanding. -/
structure State where
  isStreaming : Bool
  streamingContent : String
  eventSource : Option Unit
  reading : Bool
  calls : List Call
  notifications : List String
  deriving DecidableEq

/-- A fresh `useStreaming()`: `ref(false)`, `ref('')`, `ref(null)`, nothing called yet. -/
def init : State :=
  { isStreaming := false, streamingContent := "", eventSource := none, reading := false,
    calls := [], notifications := [] }

/-- Puts a character in front of the first block of a split. -/
def pushHead (c : Char) : List Text → List Text
  | [] => [[c]]
  | b :: bs => (c :: b) :: bs

/-- The split `chunk.split('\n\n')`: the text is cut at each occurrence of two newline
characters, found left to right without overlap; the empty text gives one empty block. -/
def splitBlocks : Text → List Text
  | [] => [[]]
  | [c] => [[c]]
  | c :: d :: rest =>
    if c = '\n' ∧ d = '\n' then [] :: splitBlocks rest
    else pushHead c (splitBlocks (d :: rest))

/-- The literal `'data: '` of `line.startsWith('data: ')`. -/
def dataTag : Text := "data: ".toList

/-- The branch on `data.type` inside the `try` block (lines 70-82). -/
def dispatch (data : Payload) (st : State) : State :=
  if data.type = "start" then
    { st with streamingContent := "" }
  else if data.type = "chunk" then
    { st with
      streamingContent := st.streamingContent ++ data.content
      calls := st.calls ++ [Call.onChunk data.content (st.streamingContent ++ data.content)] }
  else if data.type = "complete" then
    { st with isStreaming := false, calls := st.calls ++ [Call.onComplete data] }
  else if data.type = "error" then
    { st with
      isStreaming := false
      calls := st.calls ++ [Call.onError data.message]
      notifications := st.notifications ++ [data.message] }
  else st

/-- The body of `lines.forEach(line => ...)` for one block. `parse` is `JSON.parse` followed by
the field reads; `none` is a thrown exception, which the `catch` only logs. -/
def processLine (parse : Text → Option Payload) (st : State) (line : Text) : State :=
  if dataTag.isPrefixOf line then
    match parse (line.drop 6) with
    | some data => dispatch data st
    | none => st
  else st

/-- The loop `lines.forEach(...)` over the blocks of one read. -/
def processLines (parse : Text → Option Payload) (st : State) (lines : List Text) : State :=
  lines.foldl (processLine parse) st

/-- How one `reader.read()` settles. -/
inductive ReadResult where
  | value (chunk : Text)
  | done
  | failure (message : String)
  deriving DecidableEq

/-- The `.then`/`.catch` of one `reader.read()` in `readStream` (lines 54-96): at `done` the loop
ends; a value is split and dispatched and `readStream()` is called again; a rejected read calls
`onError` and ends the loop. -/
def onRead (parse : Text → Option Payload) (st : State) : ReadResult → State
  | .done => { st with isStreaming := false, reading := false }
  | .value chunk => processLines parse st (splitBlocks chunk)
  | .failure message =>
    { st with
      isStreaming := false
      reading := false
      calls := st.calls ++ [Call.onError message]
      notifications := st.notifications ++ ["连接中断"] }

/-- The function `stopStreaming` (lines 111-117). -/
def stopStreaming (st : State) : State :=
  match st.eventSource with
  | some _ => { st with eventSource := none, isStreaming := false }
  | none => { st with isStreaming := false }

/-- What happens next to a streaming session: the outstanding read settles, or the caller
invokes `stopStreaming`. -/
inductive Event where
  | read (r : ReadResult)
  | stop
  deriving DecidableEq

/-- One step of the session. A read can only settle while one is outstanding. -/
def step (parse : Text → Option Payload) (st : State) : Event → State
  | .read r => if st.reading then onRead parse st r else st
  | .stop => stopStreaming st

/-- A run of the session over a sequence of events. -/
def run (parse : Text → Option Payload) (st : State) (events : List Event) : State :=
  events.foldl (step parse) st

/-- The read loop `readStream` over the successive results of `reader.read()`. -/
def readStream (parse : Text → Option Payload) (st : State) (reads : List ReadResult) : State :=
  run parse st (reads.map Event.read)

/-- How the `fetch` of `startStreaming` settles: rejected; or a response with its `ok` flag and
`status`, whose `body` is a stream; or an ok response whose `body` is `null` (a status such as
204), where `message` is the message of the `TypeError` that `response.body.getReader()`
(line 49) then throws. -/
inductive FetchOutcome where
  | rejected (message : String)
  | response (ok : Bool) (status : Nat)
  | okNoBody (status : Nat) (message : String)
  deriving DecidableEq

/-- The function `startStreaming` up to the first `readStream()` call (lines 22-106): the refs
are reset; a rejected fetch, a response that is not ok (the `throw` of line 46) and an ok
response without a body (the `TypeError` of line 49) all go to the outer `catch` of lines
101-105; otherwise the first read is issued. -/
def startStreaming (st : State) : FetchOutcome → State
  | .rejected message =>
    { st with
      isStreaming := false
      streamingContent := ""
      calls := st.calls ++ [Call.onError message]
      notifications := st.notifications ++ ["连接失败: " ++ message] }
  | .response ok status =>
    if ok then { st with isStreaming := true, streamingContent := "", reading := true }
    else
      { st with
        isStreaming := false
        streamingContent := ""
        calls := st.calls ++ [Call.onError ("HTTP error! status: " ++ toString status)]
        notifications :=
          st.notifications ++ ["连接失败: " ++ ("HTTP error! status: " ++ toString status)] }
  | .okNoBody _ message =>
    { st with
      isStreaming := false
      streamingContent := ""
      calls := st.calls ++ [Call.onError message]
      notifications := st.notifications ++ ["连接失败: " ++ message] }

/-- One server-sent event as the server frames it: `data: <json>` and two newlines. -/
def sseEvent (json : Text) : Text := dataTag ++ json ++ ['\n', '\n']

/-- The text of several events one after the other. -/
def sseEvents (jsons : List Text) : Text := (jsons.map sseEvent).flatten

/-- The event text `{"type":"start"}`. -/
def startJson : Text := "\x7b\"type\":\"start\"\x7d".toList

/-- The event text `{"type":"chunk","content":"ab"}`. -/
def chunkAbJson : Text := "\x7b\"type\":\"chunk\",\"content\":\"ab\"\x7d".toList

/-- The event text `{"type":"chunk","content":"cd"}`. -/
def chunkCdJson : Text := "\x7b\"type\":\"chunk\",\"content\":\"cd\"\x7d".toList

/-- The event text `{"type":"complete"}`. -/
def completeJson : Text := "\x7b\"type\":\"complete\"\x7d".toList

/-- The event text `{"type":"error","message":"boom"}`. -/
def errorJson : Text := "\x7b\"type\":\"error\",\"message\":\"boom\"\x7d".toList

/-- A text that is not JSON: `{"type":`. -/
def brokenJson : Text := "\x7b\"type\":".toList

/-- A table standing for `JSON.parse` on the event texts used in the examples below (a newline
after the value is white space that `JSON.parse` accepts); every other text is a syntax error. -/
def sampleParse (s : Text) : Option Payload :=
  if s = startJson then some ⟨"start", "", "", ""⟩
  else if s = chunkAbJson ∨ s = chunkAbJson ++ ['\n'] then some ⟨"chunk", "ab", "", ""⟩
  else if s = chunkCdJson ∨ s = chunkCdJson ++ ['\n'] then some ⟨"chunk", "cd", "", ""⟩
  else if s = completeJson then some ⟨"complete", "", "", ""⟩
  else if s = errorJson then some ⟨"error", "", "boom", ""⟩
  else none

/-- Dispatching a list of payloads one after the other. -/
def dispatchAll (st : State) (payloads : List Payload) : State :=
  payloads.foldl (fun s p => dispatch p s) st

/-- A session whose fetch got an ok response: the first read is outstanding. -/
def okSession : State := startStreaming init (.response true 200)

/-- The reads that deliver groups of whole events, one read for each group. -/
def wireReads (reads : List (List (Text × Payload))) : List ReadResult :=
  reads.map fun g => ReadResult.value (sseEvents (g.map (·.1)))

/-- The contents of the events of all the groups, in order. -/
def chunkContents (reads : List (List (Text × Payload))) : List String :=
  reads.flatten.map (·.2.content)

/-- The calls the chunk contents `c1..cn` are expected to cause: the `k`-th is
`onChunk(ck, c1 ++ ... ++ ck)`. -/
def expectedChunkCalls (cs : List String) : List Call :=
  (List.range cs.length).map fun k =>
    Call.onChunk (cs.getD k "") (String.join (cs.take (k + 1)))

/-- The effect of a `complete` event on the state (lines 76-77). -/
def markComplete (data : Payload) (st : State) : State :=
  { st with isStreaming := false, calls := st.calls ++ [Call.onComplete data] }

/-- Whether a call is one of the two terminal callbacks, `onComplete` or `onError`. -/
def isTerminalCall : Call → Bool
  | .onChunk _ _ => false
  | .onComplete _ => true
  | .onError _ => true

/-- The number of `onComplete` and `onError` invocations so far. -/
def terminalCalls (st : State) : Nat := st.calls.countP isTerminalCall

/-- Whether a block is dispatched as a `complete` or an `error` event. -/
def terminalBlock (parse : Text → Option Payload) (line : Text) : Bool :=
  dataTag.isPrefixOf line &&
    match parse (line.drop 6) with
    | some data => decide (data.type = "complete") || decide (data.type = "error")
    | none => false

/-- The number of `complete` and `error` blocks in the reads that settle before the loop ends. -/
def terminalEvents (parse : Text → Option Payload) : List ReadResult → Nat
  | [] => 0
  | .value chunk :: rest => (splitBlocks chunk).countP (terminalBlock parse) + terminalEvents parse rest
  | .done :: _ => 0
  | .failure _ :: _ => 0

/-- One if the loop ends in a rejected read, zero if not. -/
def readFailures : List ReadResult → Nat
  | [] => 0
  | .value _ :: rest => readFailures rest
  | .done :: _ => 0
  | .failure _ :: _ => 1

/-- The calls the chunk contents `cs` are expected to cause when the text accumulated before
them is `acc`. -/
def chunkCalls (acc : String) : List String → List Call
  | [] => []
  | c :: cs => Call.onChunk c (acc ++ c) :: chunkCalls (acc ++ c) cs

end Streaming

/-! ## Export: the download name -/

namespace Export

/-- The names of the properties every object literal inherits from `Object.prototype`. -/
def objectPrototypeKeys : List String :=
  ["constructor", "hasOwnProperty", "isPrototypeOf", "propertyIsEnumerable", "toLocaleString",
   "toString", "valueOf", "__proto__", "__defineGetter__", "__defineSetter__",
   "__lookupGetter__", "__lookupSetter__"]

/-- The value of a property read on the object literal of lines 31-35. -/
inductive Looked where
  | own (value : String)
  | inherited (property : String)
  | undefined
  deriving DecidableEq

/-- The property read `{ markdown: 'md', html: 'html', pdf: 'pdf' }[format]`: an own property,
else a property found on the prototype chain, else `undefined`. -/
def lookupExt (format : String) : Looked :=
  if format = "markdown" then .own "md"
  else if format = "html" then .own "html"
  else if format = "pdf" then .own "pdf"
  else if format ∈ objectPrototypeKeys then .inherited format
  else .undefined

/-- The value of `ext`: a string, or a built-in of `Object.prototype`. -/
inductive ExtValue where
  | str (s : String)
  | builtin (property : String)
  deriving DecidableEq

/-- The expression `{...}[format] || 'txt'`: the three own values and the inherited built-ins are
truthy, `undefined` is not. -/
def ext (format : String) : ExtValue :=
  match lookupExt format with
  | .own value => .str value
  | .inherited property => .builtin property
  | .undefined => .str "txt"

/-- The template string of line 37, the download name. `nativeText` is the text the engine gives
for a built-in of `Object.prototype` when it is turned into a string. -/
def downloadName (nativeText : String → String) (filename format : String) : String :=
  match ext format with
  | .str s => filename ++ "." ++ s
  | .builtin property => filename ++ "." ++ nativeText property

end Export

/-! ## Router: the route table and the guard -/

namespace Router

/-- The `meta` object of a route record; a field that is not written is `none`. -/
structure Meta where
  requiresAuth : Option Bool
  requiresAdmin : Option Bool
  requiresRole : Option (List String)
  deriving DecidableEq

/-- A child record of the layout route. -/
structure ChildRecord where
  path : String
  name : String
  meta : Meta
  deriving DecidableEq

/-- A top-level route record. -/
structure RouteRecord where
  path : String
  name : Option String
  meta : Meta
  children : List ChildRecord
  deriving DecidableEq

/-- The empty `meta`. -/
def noMeta : Meta := { requiresAuth := none, requiresAdmin := none, requiresRole := none }

/-- The `routes` array (lines 6-59). -/
def routes : List RouteRecord :=
  [ { path := "/login", name := some "Login", meta := { noMeta with requiresAuth := some false },
      children := [] },
    { path := "/register", name := some "Register",
      meta := { noMeta with requiresAuth := some false }, children := [] },
    { path := "/", name := none, meta := { noMeta with requiresAuth := some true },
      children :=
        [ { path := "", name := "Chat", meta := noMeta },
          { path := "files", name := "Files", meta := noMeta },
          { path := "conversations", name := "Conversations", meta := noMeta },
          { path := "admin", name := "Admin", meta := { noMeta with requiresAdmin := some true } },
          { path := "dashboard", name := "Dashboard",
            meta := { noMeta with requiresAdmin := some true } },
          { path := "review", name := "Review",
            meta := { noMeta with requiresRole := some ["admin", "auditor", "superuser"] } } ] } ]

/-- The router merges the `meta` of the matched records, parent first: a field of the child
wins over the same field of the parent. -/
def mergeMeta (parent child : Meta) : Meta :=
  { requiresAuth := child.requiresAuth <|> parent.requiresAuth
    requiresAdmin := child.requiresAdmin <|> parent.requiresAdmin
    requiresRole := child.requiresRole <|> parent.requiresRole }

/-- The target `to` of a navigation: its name and its merged `meta`. -/
structure Target where
  name : Option String
  meta : Meta
  deriving DecidableEq

/-- The targets one record resolves to: itself when it has no children, else its children. -/
def recordTargets (r : RouteRecord) : List Target :=
  match r.children with
  | [] => [{ name := r.name, meta := r.meta }]
  | cs => cs.map fun c => { name := some c.name, meta := mergeMeta r.meta c.meta }

/-- Every target of the route table. -/
def targets : List Target := routes.flatMap recordTargets

/-- The target with a given name, if the table has one. -/
def target? (name : String) : Option Target := targets.find? fun t => t.name = some name

/-- The object `user` of the auth store. -/
structure User where
  role : String
  deriving DecidableEq

/-- The refs `token` and `user` of the auth store (`stores/auth.js`, lines 6-7). -/
structure Session where
  token : Option String
  user : Option User
  deriving DecidableEq

/-- The computed `isAuthenticated`, `!!token.value`: `null` and the empty string are falsy. -/
def isAuthenticated (s : Session) : Bool :=
  match s.token with
  | none => false
  | some t => t != ""

/-- The expression `authStore.user?.role`. -/
def userRole (s : Session) : Option String := s.user.map (·.role)

/-- Truthiness of a boolean `meta` flag. -/
def flag (b : Option Bool) : Bool := b.getD false

/-- A call of `next`. -/
inductive Next where
  | allow
  | redirect (name : String)
  deriving DecidableEq

/-- The guard `router.beforeEach` (lines 63-75): the calls of `next` it makes for the target
`to`, here `toRoute`. -/
def beforeEach (toRoute : Target) (s : Session) : List Next :=
  if flag toRoute.meta.requiresAuth && !isAuthenticated s then [.redirect "Login"]
  else if (toRoute.name == some "Login" || toRoute.name == some "Register") && isAuthenticated s then
    [.redirect "Chat"]
  else if flag toRoute.meta.requiresAdmin && userRole s != some "admin" then [.redirect "Chat"]
  else [.allow]

end Router

/-! ## API client: the error branch of the response interceptor -/

namespace Api

/-- The persisted key-value storage (`localStorage`). -/
abbrev Storage := List (String × String)

/-- The call `localStorage.removeItem(key)`. -/
def removeItem (key : String) (s : Storage) : Storage := s.filter fun kv => kv.1 != key

/-- The call `localStorage.getItem(key)`. -/
def getItem (key : String) (s : Storage) : Option String := (s.find? fun kv => kv.1 == key).map (·.2)

/-- The error the interceptor receives: one with a response (status and the `detail` and
`message` of its data), one with only a request, or any other. -/
inductive AxiosError where
  | response (status : Nat) (detail : Option String) (message : Option String)
  | request
  | other
  deriving DecidableEq

/-- What the interceptor acts on: the storage, the `router.push` calls and the `ElMessage.error`
calls so far. -/
structure Client where
  storage : Storage
  pushes : List String
  messages : List String
  deriving DecidableEq

/-- A string operand of `||`: `undefined` and the empty string are falsy. -/
def orElse (a : Option String) (b : String) : String :=
  match a with
  | none => b
  | some s => if s = "" then b else s

/-- The rejection handler of `apiClient.interceptors.response` (lines 33-58). -/
def onRejected (c : Client) : AxiosError → Client
  | .response status detail message =>
    if status = 401 then
      { storage := removeItem "user" (removeItem "token" c.storage)
        pushes := c.pushes ++ ["/login"]
        messages := c.messages ++ ["登录已过期，请重新登录"] }
    else if status = 403 then { c with messages := c.messages ++ ["没有权限执行此操作"] }
    else if status = 404 then { c with messages := c.messages ++ ["请求的资源不存在"] }
    else if status ≥ 500 then { c with messages := c.messages ++ ["服务器错误，请稍后重试"] }
    else { c with messages := c.messages ++ [orElse detail (orElse message "请求失败")] }
  | .request => { c with messages := c.messages ++ ["网络错误，请检查网络连接"] }
  | .other => { c with messages := c.messages ++ ["请求失败，请稍后重试"] }

/-- The interceptor handling a sequence of error responses one after the other. -/
def handleAll (c : Client) (errors : List AxiosError) : Client := errors.foldl onRejected c

/-- Whether an error is a response with status 401. -/
def is401 : AxiosError → Bool
  | .response status _ _ => status == 401
  | _ => false

end Api

/-! # Theorems -/

namespace Streaming

/-! ## Framing lemmas -/

theorem dataTag_eq : dataTag = ['d', 'a', 't', 'a', ':', ' '] := rfl

theorem splitBlocks_cons_ne (c : Char) (hc : c ≠ '\n') (d : Char) (rest : Text) :
    splitBlocks (c :: d :: rest) = pushHead c (splitBlocks (d :: rest)) := by
  rw [splitBlocks]
  simp [hc]

/-- A block without a newline, followed by the delimiter, is cut off as one block. -/
theorem splitBlocks_block (b : Text) (hb : '\n' ∉ b) (rest : Text) :
    splitBlocks (b ++ '\n' :: '\n' :: rest) = b :: splitBlocks rest := by
  induction b with
  | nil => simp [splitBlocks]
  | cons c b ih =>
    have hc : c ≠ '\n' := fun h => hb (by simp [h])
    have hb2 : '\n' ∉ b := fun h => hb (by simp [h])
    have ih2 := ih hb2
    cases b with
    | nil =>
      simp only [List.cons_append, List.nil_append] at ih2 ⊢
      rw [splitBlocks_cons_ne c hc, ih2]
      rfl
    | cons d b2 =>
      simp only [List.cons_append] at ih2 ⊢
      rw [splitBlocks_cons_ne c hc, ih2]
      rfl

theorem not_mem_dataTag_append (json : Text) (h : '\n' ∉ json) : '\n' ∉ dataTag ++ json := by
  intro hm
  rcases List.mem_append.mp hm with h1 | h1
  · revert h1
    rw [dataTag_eq]
    decide
  · exact h h1

theorem splitBlocks_sseEvent (json : Text) (h : '\n' ∉ json) (rest : Text) :
    splitBlocks (sseEvent json ++ rest) = (dataTag ++ json) :: splitBlocks rest := by
  have := splitBlocks_block (dataTag ++ json) (not_mem_dataTag_append json h) rest
  simpa [sseEvent, List.append_assoc] using this

theorem processLine_data (parse : Text → Option Payload) (st : State) (json : Text) :
    processLine parse st (dataTag ++ json) =
      match parse json with
      | some data => dispatch data st
      | none => st := by
  have h1 : dataTag.isPrefixOf (dataTag ++ json) = true := by
    rw [List.isPrefixOf_iff_prefix]
    exact List.prefix_append _ _
  have h2 : (dataTag ++ json).drop 6 = json := by
    rw [dataTag_eq]
    rfl
  unfold processLine
  rw [if_pos h1, h2]

theorem processLine_nil (parse : Text → Option Payload) (st : State) :
    processLine parse st [] = st := rfl

/-! ## The loop flag -/

theorem dispatch_reading (data : Payload) (st : State) :
    (dispatch data st).reading = st.reading := by
  unfold dispatch
  split_ifs <;> rfl

theorem processLine_reading (parse : Text → Option Payload) (st : State) (line : Text) :
    (processLine parse st line).reading = st.reading := by
  unfold processLine
  split_ifs
  · cases parse (List.drop 6 line) with
    | none => rfl
    | some d => exact dispatch_reading d st
  · rfl

theorem processLines_reading (parse : Text → Option Payload) (lines : List Text) (st : State) :
    (processLines parse st lines).reading = st.reading := by
  induction lines generalizing st with
  | nil => rfl
  | cons l ls ih =>
    show (processLines parse (processLine parse st l) ls).reading = st.reading
    rw [ih, processLine_reading]

theorem dispatchAll_reading (payloads : List Payload) (st : State) :
    (dispatchAll st payloads).reading = st.reading := by
  induction payloads generalizing st with
  | nil => rfl
  | cons p ps ih =>
    show (dispatchAll (dispatch p st) ps).reading = st.reading
    rw [ih, dispatch_reading]

/-- A read made of whole events dispatches the payloads of these events, in order. -/
theorem processLines_sseEvents (parse : Text → Option Payload) (events : List (Text × Payload))
    (hev : ∀ e ∈ events, '\n' ∉ e.1 ∧ parse e.1 = some e.2) (st : State) :
    processLines parse st (splitBlocks (sseEvents (events.map (·.1)))) =
      dispatchAll st (events.map (·.2)) := by
  induction events generalizing st with
  | nil => rfl
  | cons e es ih =>
    have he := hev e (List.mem_cons_self _ _)
    have hes : ∀ x ∈ es, '\n' ∉ x.1 ∧ parse x.1 = some x.2 :=
      fun x hx => hev x (List.mem_cons_of_mem _ hx)
    have hs : sseEvents ((e :: es).map (·.1)) = sseEvent e.1 ++ sseEvents (es.map (·.1)) := by
      simp [sseEvents]
    rw [hs, splitBlocks_sseEvent _ he.1]
    show processLines parse (processLine parse st (dataTag ++ e.1)) _ = _
    rw [processLine_data, he.2, ih hes]
    rfl

/-! ## Chunk events -/

theorem foldl_append_join (l : List String) (acc : String) :
    l.foldl (fun r s => r ++ s) acc = acc ++ String.join l := by
  induction l generalizing acc with
  | nil => simp [String.join]
  | cons c cs ih =>
    have h1 : String.join (c :: cs) = c ++ String.join cs := by
      show List.foldl (fun r s => r ++ s) ("" ++ c) cs = _
      rw [ih, String.empty_append]
    rw [List.foldl_cons, ih, h1, String.append_assoc]

theorem join_cons (c : String) (cs : List String) :
    String.join (c :: cs) = c ++ String.join cs := by
  show List.foldl (fun r s => r ++ s) ("" ++ c) cs = _
  rw [foldl_append_join, String.empty_append]

theorem chunkCalls_eq_range (cs : List String) (acc : String) :
    chunkCalls acc cs =
      (List.range cs.length).map fun k =>
        Call.onChunk (cs.getD k "") (acc ++ String.join (cs.take (k + 1))) := by
  induction cs generalizing acc with
  | nil => rfl
  | cons c cs ih =>
    rw [chunkCalls, ih, List.length_cons, List.range_succ_eq_map, List.map_cons, List.map_map]
    congr 1
    apply List.map_congr_left
    intro k _
    show Call.onChunk (cs.getD k "") (acc ++ c ++ String.join (List.take (k + 1) cs)) =
        Call.onChunk (cs.getD k "") (acc ++ String.join (c :: List.take (k + 1) cs))
    rw [join_cons, String.append_assoc]

theorem dispatch_chunk (p : Payload) (hp : p.type = "chunk") (st : State) :
    dispatch p st =
      { st with
        streamingContent := st.streamingContent ++ p.content
        calls := st.calls ++ [Call.onChunk p.content (st.streamingContent ++ p.content)] } := by
  unfold dispatch
  rw [if_neg (by rw [hp]; decide), if_pos hp]

theorem dispatchAll_chunks (ps : List Payload) (hps : ∀ p ∈ ps, p.type = "chunk") (st : State) :
    dispatchAll st ps =
      { st with
        streamingContent := st.streamingContent ++ String.join (ps.map (·.content))
        calls := st.calls ++ chunkCalls st.streamingContent (ps.map (·.content)) } := by
  induction ps generalizing st with
  | nil => simp [dispatchAll, String.join, chunkCalls]
  | cons p ps ih =>
    have hp := hps p (List.mem_cons_self _ _)
    have hrest : ∀ q ∈ ps, q.type = "chunk" := fun q hq => hps q (List.mem_cons_of_mem _ hq)
    show dispatchAll (dispatch p st) ps = _
    rw [ih hrest, dispatch_chunk p hp]
    simp [join_cons, chunkCalls, String.append_assoc]

theorem dispatchAll_append (st : State) (ps qs : List Payload) :
    dispatchAll st (ps ++ qs) = dispatchAll (dispatchAll st ps) qs := by
  simp [dispatchAll, List.foldl_append]

/-- Reads that each hold whole events dispatch the payloads of all the events, in order. -/
theorem readStream_whole_events (parse : Text → Option Payload)
    (reads : List (List (Text × Payload)))
    (hev : ∀ g ∈ reads, ∀ e ∈ g, '\n' ∉ e.1 ∧ parse e.1 = some e.2)
    (st : State) (hst : st.reading = true) :
    readStream parse st (reads.map fun g => ReadResult.value (sseEvents (g.map (·.1)))) =
      dispatchAll st (reads.flatten.map (·.2)) := by
  induction reads generalizing st with
  | nil => rfl
  | cons g gs ih =>
    have hg := hev g (List.mem_cons_self _ _)
    have hgs : ∀ h ∈ gs, ∀ e ∈ h, '\n' ∉ e.1 ∧ parse e.1 = some e.2 :=
      fun h hh => hev h (List.mem_cons_of_mem _ hh)
    have h1 : step parse st (Event.read (ReadResult.value (sseEvents (g.map (·.1))))) =
        dispatchAll st (g.map (·.2)) := by
      simp only [step, hst, if_true, onRead]
      exact processLines_sseEvents parse g hg st
    have h2 : (dispatchAll st (g.map (·.2))).reading = true := by
      rw [dispatchAll_reading, hst]
    show readStream parse (step parse st _) _ = _
    rw [h1, ih hgs _ h2, List.flatten_cons, List.map_append, dispatchAll_append]

/-! ## Terminal callbacks -/

theorem terminalCalls_dispatch (data : Payload) (st : State) :
    terminalCalls (dispatch data st) =
      terminalCalls st +
        (if (decide (data.type = "complete") || decide (data.type = "error")) = true then 1
         else 0) := by
  unfold dispatch
  by_cases h1 : data.type = "start"
  · simp [h1, terminalCalls]
  · by_cases h2 : data.type = "chunk"
    · simp [h2, terminalCalls, List.countP_append, isTerminalCall]
    · by_cases h3 : data.type = "complete"
      · simp [h3, terminalCalls, List.countP_append, isTerminalCall]
      · by_cases h4 : data.type = "error"
        · simp [h4, terminalCalls, List.countP_append, isTerminalCall]
        · simp [h1, h2, h3, h4]

theorem terminalCalls_processLine (parse : Text → Option Payload) (st : State) (line : Text) :
    terminalCalls (processLine parse st line) =
      terminalCalls st + (if terminalBlock parse line = true then 1 else 0) := by
  unfold processLine terminalBlock
  by_cases h : dataTag.isPrefixOf line = true
  · rw [if_pos h, h]
    cases hp : parse (List.drop 6 line) with
    | none => simp
    | some d => simpa using terminalCalls_dispatch d st
  · rw [if_neg h]
    simp [h]

theorem terminalCalls_processLines (parse : Text → Option Payload) (lines : List Text)
    (st : State) :
    terminalCalls (processLines parse st lines) =
      terminalCalls st + lines.countP (terminalBlock parse) := by
  induction lines generalizing st with
  | nil => rfl
  | cons l ls ih =>
    show terminalCalls (processLines parse (processLine parse st l) ls) = _
    rw [ih, terminalCalls_processLine, List.countP_cons]
    omega

theorem readStream_not_reading (parse : Text → Option Payload) (reads : List ReadResult)
    (st : State) (hst : st.reading = false) : readStream parse st reads = st := by
  induction reads with
  | nil => rfl
  | cons r rs ih =>
    show readStream parse (step parse st (Event.read r)) rs = st
    have : step parse st (Event.read r) = st := by simp [step, hst]
    rw [this, ih]

theorem terminalCalls_readStream (parse : Text → Option Payload) (reads : List ReadResult)
    (st : State) (hst : st.reading = true) :
    terminalCalls (readStream parse st reads) =
      terminalCalls st + terminalEvents parse reads + readFailures reads := by
  induction reads generalizing st with
  | nil => rfl
  | cons r rs ih =>
    have hstep : readStream parse st (r :: rs) = readStream parse (onRead parse st r) rs := by
      show readStream parse (step parse st (Event.read r)) rs = _
      simp [step, hst]
    rw [hstep]
    cases r with
    | value chunk =>
      have hr : (onRead parse st (ReadResult.value chunk)).reading = true := by
        show (processLines parse st (splitBlocks chunk)).reading = true
        rw [processLines_reading, hst]
      rw [ih _ hr]
      show terminalCalls (processLines parse st (splitBlocks chunk)) + _ + _ = _
      rw [terminalCalls_processLines]
      simp only [terminalEvents, readFailures]
      omega
    | done =>
      rw [readStream_not_reading parse rs _ rfl]
      simp [onRead, terminalCalls, terminalEvents, readFailures]
    | failure message =>
      rw [readStream_not_reading parse rs _ rfl]
      simp [onRead, terminalCalls, terminalEvents, readFailures, List.countP_append,
        isTerminalCall]

/-! ## The claims on the read loop -/

/-- Whatever the parser, an event whose text is cut after `da` causes nothing at all: neither
piece starts with `data: `. -/
theorem cut_inside_tag_drops_event (parse : Text → Option Payload) (json : Text)
    (hjson : '\n' ∉ json) (st : State) (hst : st.reading = true) :
    readStream parse st [.value ((sseEvent json).take 2), .value ((sseEvent json).drop 2)] =
      st := by
  have h1 : (sseEvent json).take 2 = ['d', 'a'] := rfl
  have h2 : (sseEvent json).drop 2 = ('t' :: 'a' :: ':' :: ' ' :: json) ++ '\n' :: '\n' :: [] := by
    simp [sseEvent, dataTag_eq]
  have hno : '\n' ∉ 't' :: 'a' :: ':' :: ' ' :: json := by
    simp only [List.mem_cons, not_or]
    exact ⟨by decide, by decide, by decide, by decide, hjson⟩
  have hsplit := splitBlocks_block _ hno []
  have hstep1 : step parse st (Event.read (.value ['d', 'a'])) = st := by
    simp only [step, hst, if_true, onRead]
    rfl
  have hstep2 : step parse st
      (Event.read (.value (('t' :: 'a' :: ':' :: ' ' :: json) ++ '\n' :: '\n' :: []))) = st := by
    simp only [step, hst, if_true, onRead]
    rw [hsplit]
    rfl
  rw [h1, h2]
  simp only [readStream, run, List.map_cons, List.map_nil, List.foldl_cons, List.foldl_nil]
  rw [hstep1, hstep2]

/-- C1, evaluated on the code: an event that straddles two reads is lost. The one event
`data: {"type":"chunk","content":"ab"}` and its delimiter give `onChunk("ab", "ab")` when they
arrive in one read and no call at all when the text is cut after `da`; and when the cut falls
between the two newlines of the first delimiter of two events, the second event is lost. -/
theorem straddling_event_is_lost :
    (sseEvent chunkAbJson).take 2 ++ (sseEvent chunkAbJson).drop 2 = sseEvent chunkAbJson ∧
    (readStream sampleParse okSession [.value (sseEvent chunkAbJson)]).calls =
      [Call.onChunk "ab" "ab"] ∧
    (readStream sampleParse okSession
      [.value ((sseEvent chunkAbJson).take 2), .value ((sseEvent chunkAbJson).drop 2)]).calls =
      [] ∧
    (readStream sampleParse okSession [.value (sseEvents [chunkAbJson, chunkCdJson])]).calls =
      [Call.onChunk "ab" "ab", Call.onChunk "cd" "abcd"] ∧
    (readStream sampleParse okSession
      [.value ((sseEvents [chunkAbJson, chunkCdJson]).take ((sseEvent chunkAbJson).length - 1)),
       .value ((sseEvents [chunkAbJson, chunkCdJson]).drop ((sseEvent chunkAbJson).length - 1))]
      ).calls = [Call.onChunk "ab" "ab"] := by
  decide

/-- C2: chunk events with contents `c1..cn`, delivered as whole events in any grouping into
reads, after the session is created by `startStreaming` or after a `start` event was dispatched:
the `k`-th `onChunk` call receives `ck` and `c1 ++ ... ++ ck`, and `streamingContent` ends as the
concatenation of all of them. -/
theorem chunk_events_accumulate (parse : Text → Option Payload) (st : State) (status : Nat)
    (start : Payload) (reads : List (List (Text × Payload)))
    (hstart : start.type = "start") (hreading : st.reading = true)
    (hev : ∀ g ∈ reads, ∀ e ∈ g, '\n' ∉ e.1 ∧ parse e.1 = some e.2 ∧ e.2.type = "chunk") :
    ((readStream parse (startStreaming st (.response true status)) (wireReads reads)).calls =
        st.calls ++ expectedChunkCalls (chunkContents reads) ∧
      (readStream parse (startStreaming st (.response true status))
        (wireReads reads)).streamingContent = String.join (chunkContents reads)) ∧
    ((readStream parse (dispatch start st) (wireReads reads)).calls =
        st.calls ++ expectedChunkCalls (chunkContents reads) ∧
      (readStream parse (dispatch start st) (wireReads reads)).streamingContent =
        String.join (chunkContents reads)) := by
  have hev2 : ∀ g ∈ reads, ∀ e ∈ g, '\n' ∉ e.1 ∧ parse e.1 = some e.2 :=
    fun g hg e he => ⟨(hev g hg e he).1, (hev g hg e he).2.1⟩
  have hps : ∀ p ∈ reads.flatten.map (·.2), p.type = "chunk" := by
    intro p hp
    obtain ⟨e, he, rfl⟩ := List.mem_map.mp hp
    obtain ⟨g, hg, heg⟩ := List.mem_flatten.mp he
    exact (hev g hg e heg).2.2
  have hcs : (reads.flatten.map (·.2)).map (·.content) = chunkContents reads := by
    simp [chunkContents, List.map_map, Function.comp_def]
  have hexp : ∀ s : State, s.streamingContent = "" → s.reading = true →
      (readStream parse s (wireReads reads)).calls =
        s.calls ++ expectedChunkCalls (chunkContents reads) ∧
      (readStream parse s (wireReads reads)).streamingContent =
        String.join (chunkContents reads) := by
    intro s hs hr
    have h := readStream_whole_events parse reads hev2 s hr
    rw [dispatchAll_chunks _ hps, hcs, hs] at h
    have hw : readStream parse s (wireReads reads) = _ := h
    rw [hw, chunkCalls_eq_range]
    simp [expectedChunkCalls]
  constructor
  · exact hexp (startStreaming st (.response true status)) rfl rfl
  · have hd : dispatch start st = { st with streamingContent := "" } := by
      unfold dispatch
      rw [if_pos hstart]
    have h := hexp (dispatch start st) (by rw [hd]) (by rw [hd]; exact hreading)
    have hc : (dispatch start st).calls = st.calls := by rw [hd]
    rw [hc] at h
    exact h

/-- C2 at the example of the specification: contents `"ab"` then `"cd"` in two reads give the
calls `("ab", "ab")` and `("cd", "abcd")`. -/
theorem chunk_events_accumulate_witness :
    ((readStream sampleParse (startStreaming okSession (.response true 200))
        [.value (sseEvent chunkAbJson), .value (sseEvent chunkCdJson)]).calls =
        [Call.onChunk "ab" "ab", Call.onChunk "cd" "abcd"] ∧
      (readStream sampleParse (startStreaming okSession (.response true 200))
        [.value (sseEvent chunkAbJson), .value (sseEvent chunkCdJson)]).streamingContent =
        "abcd") ∧
    ((readStream sampleParse (dispatch ⟨"start", "", "", ""⟩ okSession)
        [.value (sseEvent chunkAbJson), .value (sseEvent chunkCdJson)]).calls =
        [Call.onChunk "ab" "ab", Call.onChunk "cd" "abcd"] ∧
      (readStream sampleParse (dispatch ⟨"start", "", "", ""⟩ okSession)
        [.value (sseEvent chunkAbJson), .value (sseEvent chunkCdJson)]).streamingContent =
        "abcd") :=
  chunk_events_accumulate sampleParse okSession 200 ⟨"start", "", "", ""⟩
    [[(chunkAbJson, ⟨"chunk", "ab", "", ""⟩)], [(chunkCdJson, ⟨"chunk", "cd", "", ""⟩)]]
    rfl rfl (by decide)

theorem processLines_append (parse : Text → Option Payload) (st : State) (xs ys : List Text) :
    processLines parse st (xs ++ ys) = processLines parse (processLines parse st xs) ys := by
  simp [processLines, List.foldl_append]

theorem dispatch_complete (data : Payload) (h : data.type = "complete") (st : State) :
    dispatch data st = markComplete data st := by
  unfold dispatch markComplete
  rw [if_neg (by rw [h]; decide), if_neg (by rw [h]; decide), if_pos h]

/-- C3 fails on the code: one read carrying a `complete` event and then a `chunk` event calls
`onComplete` and then `onChunk`, changes `streamingContent` from empty to `"ab"`, and leaves a
further read outstanding. -/
theorem complete_then_chunk_is_dispatched :
    okSession.streamingContent = "" ∧
    (readStream sampleParse okSession
      [.value (sseEvents [completeJson, chunkAbJson])]).calls =
      [Call.onComplete ⟨"complete", "", "", ""⟩, Call.onChunk "ab" "ab"] ∧
    (readStream sampleParse okSession
      [.value (sseEvents [completeJson, chunkAbJson])]).streamingContent = "ab" ∧
    (readStream sampleParse okSession
      [.value (sseEvents [completeJson, chunkAbJson])]).reading = true := by
  decide

/-- C3 as amended: a `complete` block sets `isStreaming` to false and calls `onComplete` with the
payload, after the blocks before it were processed; the blocks after it in the same read are
processed as usual from that state, and the loop goes on to its next read. -/
theorem complete_marks_inactive_and_continues (parse : Text → Option Payload) (st : State)
    (json : Text) (data : Payload) (before after : List Text) (chunk : Text)
    (hreading : st.reading = true) (hparse : parse json = some data)
    (htype : data.type = "complete")
    (hsplit : splitBlocks chunk = before ++ (dataTag ++ json) :: after) :
    step parse st (.read (.value chunk)) =
        processLines parse (markComplete data (processLines parse st before)) after ∧
      (step parse st (.read (.value chunk))).reading = true := by
  have hfin : step parse st (.read (.value chunk)) =
      processLines parse st (splitBlocks chunk) := by
    simp [step, hreading, onRead]
  rw [hfin]
  constructor
  · rw [hsplit, processLines_append]
    show processLines parse
      (processLine parse (processLines parse st before) (dataTag ++ json)) after = _
    rw [processLine_data, hparse]
    show processLines parse (dispatch data (processLines parse st before)) after = _
    rw [dispatch_complete data htype]
  · rw [processLines_reading, hreading]

/-- C3 as amended, at one read that carries a `complete` event and then a `chunk` event. -/
theorem complete_marks_inactive_and_continues_witness :
    step sampleParse okSession (.read (.value (sseEvents [completeJson, chunkAbJson]))) =
        processLines sampleParse
          (markComplete ⟨"complete", "", "", ""⟩ (processLines sampleParse okSession []))
          [dataTag ++ chunkAbJson, []] ∧
      (step sampleParse okSession
        (.read (.value (sseEvents [completeJson, chunkAbJson])))).reading = true :=
  complete_marks_inactive_and_continues sampleParse okSession
    completeJson ⟨"complete", "", "", ""⟩ [] [dataTag ++ chunkAbJson, []]
    (sseEvents [completeJson, chunkAbJson]) rfl (by decide) rfl (by decide)

/-- C4: a block `data: <text>` whose text does not parse causes no callback and no change of
state, and the read it is in, with whatever comes later, runs as the same read without that
block does. -/
theorem malformed_block_is_skipped (parse : Text → Option Payload) (st : State) (json : Text)
    (before after : List Text) (chunk chunk' : Text) (later : List Event)
    (hbad : parse json = none)
    (hsplit : splitBlocks chunk = before ++ (dataTag ++ json) :: after)
    (hsplit' : splitBlocks chunk' = before ++ after) :
    (∀ s : State, processLine parse s (dataTag ++ json) = s) ∧
    run parse st (Event.read (.value chunk) :: later) =
      run parse st (Event.read (.value chunk') :: later) := by
  have hskip : ∀ s : State, processLine parse s (dataTag ++ json) = s := by
    intro s
    rw [processLine_data, hbad]
  refine ⟨hskip, ?_⟩
  have hstep : step parse st (Event.read (.value chunk)) =
      step parse st (Event.read (.value chunk')) := by
    unfold step
    by_cases hr : st.reading = true
    · simp only [hr, if_true, onRead]
      rw [hsplit, hsplit', processLines_append, processLines_append]
      show processLines parse (processLine parse _ (dataTag ++ json)) after = _
      rw [hskip]
    · simp [hr]
  show run parse (step parse st _) later = run parse (step parse st _) later
  rw [hstep]

/-- C4 at a read with a broken block between two chunk events, followed by one more read. -/
theorem malformed_block_is_skipped_witness :
    (∀ s : State, processLine sampleParse s (dataTag ++ brokenJson) = s) ∧
    run sampleParse okSession
        [Event.read (.value (sseEvents [chunkAbJson, brokenJson, chunkCdJson])),
         Event.read (.value (sseEvent chunkAbJson))] =
      run sampleParse okSession
        [Event.read (.value (sseEvents [chunkAbJson, chunkCdJson])),
         Event.read (.value (sseEvent chunkAbJson))] :=
  malformed_block_is_skipped sampleParse okSession brokenJson
    [dataTag ++ chunkAbJson] [dataTag ++ chunkCdJson, []]
    (sseEvents [chunkAbJson, brokenJson, chunkCdJson]) (sseEvents [chunkAbJson, chunkCdJson])
    [Event.read (.value (sseEvent chunkAbJson))] (by decide) (by decide) (by decide)

/-- C5 fails on the code: a read carrying two `complete` events calls `onComplete` twice, and an
`error` event followed by a rejected read calls `onError` twice. -/
theorem terminal_callbacks_called_twice :
    (readStream sampleParse okSession
      [.value (sseEvents [completeJson, completeJson])]).calls =
      [Call.onComplete ⟨"complete", "", "", ""⟩, Call.onComplete ⟨"complete", "", "", ""⟩] ∧
    terminalCalls (readStream sampleParse okSession
      [.value (sseEvents [completeJson, completeJson])]) = 2 ∧
    (readStream sampleParse okSession
      [.value (sseEvent errorJson), .failure "network error"]).calls =
      [Call.onError "boom", Call.onError "network error"] := by
  decide

/-- C5 as amended: for every outcome of the fetch and every sequence of reads, the number of
`onComplete` and `onError` calls is one when the fetch fails, the response is not ok or the
response has no body, and otherwise the number of `complete` and `error` events in the reads
before the loop ends, plus one if the loop ends in a rejected read. -/
theorem terminal_calls_count (parse : Text → Option Payload) (outcome : FetchOutcome)
    (reads : List ReadResult) :
    terminalCalls (readStream parse (startStreaming init outcome) reads) =
      match outcome with
      | .response true _ => terminalEvents parse reads + readFailures reads
      | _ => 1 := by
  cases outcome with
  | rejected message =>
    rw [readStream_not_reading parse reads _ rfl]
    rfl
  | response ok status =>
    cases ok with
    | true =>
      rw [terminalCalls_readStream parse reads _ rfl]
      show 0 + terminalEvents parse reads + readFailures reads =
        terminalEvents parse reads + readFailures reads
      omega
    | false =>
      rw [readStream_not_reading parse reads _ rfl]
      rfl
  | okNoBody status message =>
    rw [readStream_not_reading parse reads _ rfl]
    rfl

/-- C6, evaluated on the code: `stopStreaming` only sets `isStreaming` to false, because
`eventSource` is never assigned; the read loop stays alive, and a chunk event read after the
stop still calls `onChunk` and changes `streamingContent`. -/
theorem stop_does_not_end_the_loop :
    (run sampleParse okSession [.read (.value (sseEvent chunkAbJson)), .stop] =
      ⟨false, "ab", none, true, [Call.onChunk "ab" "ab"], []⟩) ∧
    (run sampleParse okSession
      [.read (.value (sseEvent chunkAbJson)), .stop,
       .read (.value (sseEvent chunkCdJson))]).calls =
      [Call.onChunk "ab" "ab", Call.onChunk "cd" "abcd"] ∧
    (run sampleParse okSession
      [.read (.value (sseEvent chunkAbJson)), .stop,
       .read (.value (sseEvent chunkCdJson))]).streamingContent = "abcd" := by
  decide

end Streaming

/-! ## Export -/

namespace Export

/-- For a format that is no property name of `Object.prototype` the download name is the file
name, a dot, and `md`, `html`, `pdf` or else `txt`. -/
theorem downloadName_of_not_inherited (nativeText : String → String) (filename format : String)
    (h : format ∉ objectPrototypeKeys) :
    downloadName nativeText filename format =
      filename ++ "." ++
        (if format = "markdown" then "md" else if format = "html" then "html"
         else if format = "pdf" then "pdf" else "txt") := by
  unfold downloadName ext lookupExt
  by_cases h1 : format = "markdown"
  · simp [h1]
  · by_cases h2 : format = "html"
    · simp [h2]
    · by_cases h3 : format = "pdf"
      · simp [h3]
      · simp [h1, h2, h3, h]

/-- C7, evaluated on the code: formats `pdf` and `unknown` give `Report.pdf` and `Report.txt`,
but the format `constructor` is found on the prototype chain of the object literal, the
fallback `|| 'txt'` is not taken, and the download name ends in the text of that built-in. -/
theorem constructor_format_is_not_txt :
    (∀ nativeText, downloadName nativeText "Report" "pdf" = "Report.pdf") ∧
    (∀ nativeText, downloadName nativeText "Report" "unknown" = "Report.txt") ∧
    lookupExt "constructor" = Looked.inherited "constructor" ∧
    ext "constructor" = ExtValue.builtin "constructor" ∧
    (∀ nativeText,
      downloadName nativeText "Report" "constructor" = "Report." ++ nativeText "constructor") := by
  refine ⟨fun _ => rfl, fun _ => rfl, by decide, by decide, fun _ => rfl⟩

end Export

/-! ## Router -/

namespace Router

/-- The guard never looks at `requiresRole`. -/
theorem beforeEach_ignores_requiresRole (toRoute : Target) (roles : Option (List String))
    (s : Session) :
    beforeEach { toRoute with meta := { toRoute.meta with requiresRole := roles } } s =
      beforeEach toRoute s := rfl

/-- A navigation to Login is sent on to Chat while the store still holds a token. -/
theorem login_with_token_goes_to_chat (s : Session) (h : isAuthenticated s = true) :
    beforeEach ⟨some "Login", { noMeta with requiresAuth := some false }⟩ s =
      [Next.redirect "Chat"] := by
  simp [beforeEach, h, flag, noMeta]

/-- C8, evaluated on the code: the Review route carries `requiresRole` with the three roles, and
the guard allows the navigation of a logged-in user whose role is `user`, or who has no user
object at all. -/
theorem review_allowed_for_any_role :
    target? "Review" =
      some ⟨some "Review", ⟨some true, none, some ["admin", "auditor", "superuser"]⟩⟩ ∧
    "user" ∉ ["admin", "auditor", "superuser"] ∧
    beforeEach ⟨some "Review", ⟨some true, none, some ["admin", "auditor", "superuser"]⟩⟩
      ⟨some "t", some ⟨"user"⟩⟩ = [Next.allow] ∧
    beforeEach ⟨some "Review", ⟨some true, none, some ["admin", "auditor", "superuser"]⟩⟩
      ⟨some "t", none⟩ = [Next.allow] := by
  decide

/-- C10: for a target whose merged meta has `requiresAuth` and `requiresAdmin` both true, the
guard calls `next` exactly once; it allows only an authenticated session whose user has the role
`admin` (and does allow it unless the target is named Login or Register); a session that is not
authenticated is sent to Login, an authenticated one without that role to Chat. -/
theorem admin_routes_guard (toRoute : Target) (s : Session)
    (hauth : toRoute.meta.requiresAuth = some true)
    (hadmin : toRoute.meta.requiresAdmin = some true) :
    (∃ d, beforeEach toRoute s = [d]) ∧
    (beforeEach toRoute s = [Next.allow] →
      isAuthenticated s = true ∧ userRole s = some "admin") ∧
    (toRoute.name ≠ some "Login" → toRoute.name ≠ some "Register" →
      isAuthenticated s = true → userRole s = some "admin" →
      beforeEach toRoute s = [Next.allow]) ∧
    (isAuthenticated s = false → beforeEach toRoute s = [Next.redirect "Login"]) ∧
    (isAuthenticated s = true → userRole s ≠ some "admin" →
      beforeEach toRoute s = [Next.redirect "Chat"]) := by
  unfold beforeEach
  rw [hauth, hadmin]
  cases ha : isAuthenticated s <;> by_cases hr : userRole s = some "admin" <;>
    by_cases hl : toRoute.name = some "Login" <;>
    by_cases hg : toRoute.name = some "Register" <;>
    simp [flag, hr, hl, hg]

/-- C10 at the Admin route of the table (the Dashboard route has the same merged meta), for an
authenticated user with the role `user`. -/
theorem admin_routes_guard_witness :
    (target? "Admin" = some ⟨some "Admin", ⟨some true, some true, none⟩⟩ ∧
      target? "Dashboard" = some ⟨some "Dashboard", ⟨some true, some true, none⟩⟩) ∧
    beforeEach ⟨some "Admin", ⟨some true, some true, none⟩⟩ ⟨some "t", some ⟨"user"⟩⟩ =
      [Next.redirect "Chat"] :=
  ⟨by decide,
    (admin_routes_guard ⟨some "Admin", ⟨some true, some true, none⟩⟩ ⟨some "t", some ⟨"user"⟩⟩
      rfl rfl).2.2.2.2 (by decide) (by decide)⟩

end Router

/-! ## API client -/

namespace Api

theorem getItem_eq_none_iff (key : String) (s : Storage) :
    getItem key s = none ↔ ∀ kv ∈ s, kv.1 ≠ key := by
  unfold getItem
  simp [List.find?_eq_none]

theorem getItem_removeItem_self (key : String) (s : Storage) :
    getItem key (removeItem key s) = none := by
  rw [getItem_eq_none_iff]
  intro kv hkv
  simpa [removeItem] using (List.mem_filter.mp hkv).2

theorem getItem_removeItem_of_none (key other : String) (s : Storage)
    (h : getItem key s = none) : getItem key (removeItem other s) = none := by
  rw [getItem_eq_none_iff] at h ⊢
  intro kv hkv
  exact h kv (List.mem_filter.mp hkv).1

theorem onRejected_keeps_absent (key : String) (c : Client) (e : AxiosError)
    (h : getItem key c.storage = none) : getItem key (onRejected c e).storage = none := by
  cases e with
  | response status detail message =>
    simp only [onRejected]
    split_ifs
    · exact getItem_removeItem_of_none _ _ _ (getItem_removeItem_of_none _ _ _ h)
    all_goals exact h
  | request => exact h
  | other => exact h

theorem onRejected_401_clears (c : Client) (e : AxiosError) (he : is401 e = true) :
    getItem "token" (onRejected c e).storage = none ∧
      getItem "user" (onRejected c e).storage = none := by
  cases e with
  | response status detail message =>
    have hs : status = 401 := by simpa [is401] using he
    subst hs
    constructor
    · exact getItem_removeItem_of_none _ _ _ (getItem_removeItem_self _ _)
    · exact getItem_removeItem_self _ _
  | request => simp [is401] at he
  | other => simp [is401] at he

theorem onRejected_pushes (c : Client) (e : AxiosError) :
    (onRejected c e).pushes = c.pushes ++ (if is401 e = true then ["/login"] else []) := by
  cases e with
  | response status detail message =>
    simp only [onRejected]
    by_cases h : status = 401
    · simp [h, is401]
    · have h401 : is401 (AxiosError.response status detail message) = false := by
        simp [is401, h]
      rw [if_neg h, h401]
      simp only [Bool.false_eq_true, if_false, List.append_nil]
      split_ifs <;> rfl
  | request => simp [onRejected, is401]
  | other => simp [onRejected, is401]

theorem handleAll_keeps_absent (key : String) (errors : List AxiosError) (c : Client)
    (h : getItem key c.storage = none) : getItem key (handleAll c errors).storage = none := by
  induction errors generalizing c with
  | nil => exact h
  | cons e es ih => exact ih _ (onRejected_keeps_absent key c e h)

/-- C9 fails on the code: two responses with status 401 issue two navigations to `/login`. -/
theorem two_401_push_twice :
    (handleAll ⟨[("token", "t"), ("user", "u")], [], []⟩
      [.response 401 none none, .response 401 none none]).pushes = ["/login", "/login"] ∧
    (handleAll ⟨[("token", "t"), ("user", "u")], [], []⟩
      [.response 401 none none, .response 401 none none]).pushes.length ≠ 1 := by
  decide

/-- C9 as amended: after any sequence of error responses the interceptor has issued one
navigation to `/login` for each response with status 401, and if there was at least one such
response the keys `token` and `user` are absent from the storage. -/
theorem one_push_per_401 (c : Client) (errors : List AxiosError) :
    (handleAll c errors).pushes = c.pushes ++ List.replicate (errors.countP is401) "/login" ∧
    ((∃ e ∈ errors, is401 e = true) →
      getItem "token" (handleAll c errors).storage = none ∧
        getItem "user" (handleAll c errors).storage = none) := by
  induction errors generalizing c with
  | nil => simp [handleAll]
  | cons e es ih =>
    have hfold : handleAll c (e :: es) = handleAll (onRejected c e) es := rfl
    rw [hfold]
    obtain ⟨ihp, ihs⟩ := ih (onRejected c e)
    constructor
    · rw [ihp, onRejected_pushes, List.countP_cons]
      by_cases he : is401 e = true
      · simp [he, List.replicate_succ]
      · simp [he]
    · rintro ⟨x, hx, hx401⟩
      rcases List.mem_cons.mp hx with rfl | hmem
      · obtain ⟨h1, h2⟩ := onRejected_401_clears c x hx401
        exact ⟨handleAll_keeps_absent _ es _ h1, handleAll_keeps_absent _ es _ h2⟩
      · exact ihs ⟨x, hmem, hx401⟩

/-- C9 as amended, at the responses 401, 403, 401. -/
theorem one_push_per_401_witness :
    (handleAll ⟨[("token", "t"), ("user", "u")], [], []⟩
      [.response 401 none none, .response 403 none none, .response 401 none none]).pushes =
      [] ++ List.replicate
        ([AxiosError.response 401 none none, .response 403 none none,
          .response 401 none none].countP is401) "/login" ∧
    getItem "token" (handleAll ⟨[("token", "t"), ("user", "u")], [], []⟩
      [.response 401 none none, .response 403 none none, .response 401 none none]).storage =
      none ∧
    getItem "user" (handleAll ⟨[("token", "t"), ("user", "u")], [], []⟩
      [.response 401 none none, .response 403 none none, .response 401 none none]).storage =
      none :=
  ⟨(one_push_per_401 ⟨[("token", "t"), ("user", "u")], [], []⟩
      [.response 401 none none, .response 403 none none, .response 401 none none]).1,
    (one_push_per_401 ⟨[("token", "t"), ("user", "u")], [], []⟩
      [.response 401 none none, .response 403 none none, .response 401 none none]).2
      ⟨.response 401 none none, by decide, rfl⟩⟩

end Api
